import Mathlib

/-!
Verification of the pdfmm in-memory object model against its specification.

The development shallowly embeds the code of `src/pdfmm/base/PdfVariant.cpp`
(tagged-union value type, accessors, equality, serialization) and — where the
implementation file is not part of the sources, only its header
`PdfIndirectObjectList.h` — a model of the indirect object list built from the
specification's words (free-id allocation, garbage collection).

Conventions of the embedding:
- C++ `int64_t` payloads become `Int`; `double` payloads become `ℚ` (the code
  performs no real arithmetic beyond `std::round` and equality, both of which
  are exact on the embedded value).
- Functions that can raise a `PdfError` return `Except PdfErrorCode α`;
  functions whose bodies contain no raise are total.
- Output devices are modelled as the `List Char` the device receives.
- C++ object identity (`this == &rhs`) is an explicit `sameObject : Bool`
  argument of the equality operators.
-/

namespace Pdfmm

/-- The `PdfDataType` enum from `PdfDeclarations.h`. -/
inductive PdfDataType : Type where
  | Unknown
  | Bool
  | Number
  | Real
  | String
  | Name
  | Array
  | Dictionary
  | Null
  | Reference
  | RawData
deriving DecidableEq, Repr

/-- The `PdfReference` value: an (object number, generation number) pair.
The default constructor `PdfReference()` yields the null sentinel (0, 0). -/
structure PdfReference : Type where
  ObjectNumber : Nat
  GenerationNumber : Nat
deriving DecidableEq, Repr

/-- The `PdfErrorCode` values raised by the embedded code. -/
inductive PdfErrorCode : Type where
  | InvalidDataType
  | InvalidHandle
  | NotImplemented
  | NoObject
  | InvalidState
deriving DecidableEq, Repr

/-- The `PdfVariant` tagged union of `PdfVariant.cpp`. Each constructor is one
`PdfDataType` tag together with the payload field of the union that is valid for
that tag. Composite payloads are embedded structurally (the C++ heap
indirection and deep-copy assignment preserve exactly this value semantics);
the "null payload pointer" failure mode is unrepresentable here. -/
inductive PdfVariant : Type where
  | Unknown : PdfVariant
  | Bool (value : Bool) : PdfVariant
  | Number (value : Int) : PdfVariant
  | Real (value : ℚ) : PdfVariant
  | String (value : String) : PdfVariant
  | Name (value : String) : PdfVariant
  | Array (value : List PdfVariant) : PdfVariant
  | Dictionary (value : List (String × PdfVariant)) : PdfVariant
  | Null : PdfVariant
  | Reference (value : PdfReference) : PdfVariant
  | RawData (value : List UInt8) : PdfVariant

/-- Embedding of `PdfVariant::GetDataType`: the active tag of the union. -/
def GetDataType : PdfVariant → PdfDataType
  | .Unknown => .Unknown
  | .Bool _ => .Bool
  | .Number _ => .Number
  | .Real _ => .Real
  | .String _ => .String
  | .Name _ => .Name
  | .Array _ => .Array
  | .Dictionary _ => .Dictionary
  | .Null => .Null
  | .Reference _ => .Reference
  | .RawData _ => .RawData

/-- Model of `std::round` on the exact value: rounding to nearest, halfway cases away
from zero (the semantics of C `round`). -/
def cppRound (x : ℚ) : Int :=
  if x < 0 then -⌊-x + 1/2⌋ else ⌊x + 1/2⌋

/-- Embedding of `PdfVariant::TryGetBool`: success flag and output parameter. On tag
mismatch the output is set to `false`. The body contains no raise. -/
def TryGetBool : PdfVariant → Bool × Bool
  | .Bool b => (true, b)
  | _ => (false, false)

/-- Embedding of `PdfVariant::TryGetNumber`: strict, succeeds only on tag `Number`; output
is set to 0 on mismatch. -/
def TryGetNumber : PdfVariant → Bool × Int
  | .Number n => (true, n)
  | _ => (false, 0)

/-- Embedding of `PdfVariant::TryGetNumberLenient`: succeeds on `Number` or `Real`; a `Real`
payload is narrowed with `std::round`; output is 0 on mismatch. -/
def TryGetNumberLenient : PdfVariant → Bool × Int
  | .Number n => (true, n)
  | .Real r => (true, cppRound r)
  | _ => (false, 0)

/-- Embedding of `PdfVariant::TryGetReal`: lenient, succeeds on `Real` or `Number`; a
`Number` payload is cast to double (exact in this embedding); output is 0 on
mismatch. -/
def TryGetReal : PdfVariant → Bool × ℚ
  | .Real r => (true, r)
  | .Number n => (true, (n : ℚ))
  | _ => (false, 0)

/-- Embedding of `PdfVariant::TryGetRealStrict`: succeeds only on tag `Real`; output is 0 on
mismatch. -/
def TryGetRealStrict : PdfVariant → Bool × ℚ
  | .Real r => (true, r)
  | _ => (false, 0)

/-- Embedding of `PdfVariant::TryGetString` (public overload): on mismatch the output is
assigned the default-constructed (empty) `PdfString`. -/
def TryGetString : PdfVariant → Bool × String
  | .String s => (true, s)
  | _ => (false, "")

/-- Embedding of `PdfVariant::TryGetName` (public overload): on mismatch the output is
assigned the default-constructed (empty) `PdfName`. -/
def TryGetName : PdfVariant → Bool × String
  | .Name n => (true, n)
  | _ => (false, "")

/-- Embedding of `PdfVariant::TryGetReference`: on mismatch the output is assigned
`PdfReference()`, the (0, 0) null sentinel. -/
def TryGetReference : PdfVariant → Bool × PdfReference
  | .Reference r => (true, r)
  | _ => (false, PdfReference.mk 0 0)

/-- Embedding of `PdfVariant::TryGetArray` (through private `tryGetArray`): the out
parameter is a pointer, set to the payload on success and to `nullptr`
(embedded as `none`) on mismatch. -/
def TryGetArray : PdfVariant → Bool × Option (List PdfVariant)
  | .Array a => (true, some a)
  | _ => (false, none)

/-- Embedding of `PdfVariant::TryGetDictionary` (through private `tryGetDictionary`): the
out parameter is a pointer, set to the payload on success and to `nullptr`
(embedded as `none`) on mismatch. -/
def TryGetDictionary : PdfVariant → Bool × Option (List (String × PdfVariant))
  | .Dictionary d => (true, some d)
  | _ => (false, none)

/-- Embedding of `PdfVariant::GetBool`: raises `InvalidDataType` when `TryGetBool` fails. -/
def GetBool (v : PdfVariant) : Except PdfErrorCode Bool :=
  let r := TryGetBool v
  if r.1 then .ok r.2 else .error .InvalidDataType

/-- Embedding of `PdfVariant::GetNumber`: raises `InvalidDataType` when `TryGetNumber`
fails. -/
def GetNumber (v : PdfVariant) : Except PdfErrorCode Int :=
  let r := TryGetNumber v
  if r.1 then .ok r.2 else .error .InvalidDataType

/-- Embedding of `PdfVariant::GetNumberLenient`: raises `InvalidDataType` when
`TryGetNumberLenient` fails. -/
def GetNumberLenient (v : PdfVariant) : Except PdfErrorCode Int :=
  let r := TryGetNumberLenient v
  if r.1 then .ok r.2 else .error .InvalidDataType

/-- Embedding of `PdfVariant::GetReal`: raises `InvalidDataType` when `TryGetReal` fails. -/
def GetReal (v : PdfVariant) : Except PdfErrorCode ℚ :=
  let r := TryGetReal v
  if r.1 then .ok r.2 else .error .InvalidDataType

/-- Embedding of `PdfVariant::GetRealStrict`: raises `InvalidDataType` when
`TryGetRealStrict` fails. -/
def GetRealStrict (v : PdfVariant) : Except PdfErrorCode ℚ :=
  let r := TryGetRealStrict v
  if r.1 then .ok r.2 else .error .InvalidDataType

mutual

/-- Modelled from the spec: the `operator==` of the composite payload classes
(`PdfString`, `PdfName`, `PdfArray`, `PdfDictionary` — their sources are not
under `src/`): "composite payloads (Array, Dictionary, String, Name) compare by
recursive structural equality". -/
def structEqVariant : PdfVariant → PdfVariant → Bool
  | .Unknown, .Unknown => true
  | .Bool a, .Bool b => a == b
  | .Number a, .Number b => a == b
  | .Real a, .Real b => a == b
  | .String a, .String b => a == b
  | .Name a, .Name b => a == b
  | .Array a, .Array b => structEqList a b
  | .Dictionary a, .Dictionary b => structEqPairs a b
  | .Null, .Null => true
  | .Reference a, .Reference b => a == b
  | .RawData a, .RawData b => a == b
  | _, _ => false

/-- Elementwise structural equality of array payloads. -/
def structEqList : List PdfVariant → List PdfVariant → Bool
  | [], [] => true
  | x :: xs, y :: ys => structEqVariant x y && structEqList xs ys
  | _, _ => false

/-- Entrywise structural equality of dictionary payloads. -/
def structEqPairs : List (String × PdfVariant) → List (String × PdfVariant) → Bool
  | [], [] => true
  | (k, x) :: xs, (l, y) :: ys => k == l && structEqVariant x y && structEqPairs xs ys
  | _, _ => false

end

/-- Embedding of `PdfVariant::operator==`. Here `sameObject` embeds the C++ pointer-identity test
`this == &rhs`; callers instantiate it with `true` only when the two value
arguments are the same value. The left tag selects the comparison: scalar and
reference tags read the right side through the corresponding Try accessor,
composite tags compare payloads structurally, `RawData` raises
`NotImplemented`, and the `Null` branch returns `m_DataType == Null`, which is
`true` there without inspecting the right side. -/
def variantEq (sameObject : Bool) (lhs rhs : PdfVariant) : Except PdfErrorCode Bool :=
  if sameObject then .ok true
  else
    match lhs with
    | .Bool b =>
      let r := TryGetBool rhs
      if r.1 then .ok (b == r.2) else .ok false
    | .Number n =>
      let r := TryGetNumber rhs
      if r.1 then .ok (n == r.2) else .ok false
    | .Real x =>
      let r := TryGetRealStrict rhs
      if r.1 then .ok (x == r.2) else .ok false
    | .Reference rf =>
      let r := TryGetReference rhs
      if r.1 then .ok (rf == r.2) else .ok false
    | .String s =>
      match TryGetString rhs with
      | (true, t) => .ok (s == t)
      | _ => .ok false
    | .Name n =>
      match TryGetName rhs with
      | (true, m) => .ok (n == m)
      | _ => .ok false
    | .Array a =>
      match TryGetArray rhs with
      | (true, some b) => .ok (structEqList a b)
      | _ => .ok false
    | .Dictionary d =>
      match TryGetDictionary rhs with
      | (true, some e) => .ok (structEqPairs d e)
      | _ => .ok false
    | .RawData _ => .error .NotImplemented
    | .Null => .ok true
    | .Unknown => .ok false

/-- Embedding of `PdfVariant::operator!=`. The first statement of the body is
`if (this != &rhs) return true;`, so any comparison of two distinct objects
returns `true` before the tags are even inspected; only a self-comparison
reaches the tag dispatch (which mirrors `operator==` with negated tests, the
`Null` branch returning `m_DataType != Null`, i.e. `false` there). -/
def variantNeq (sameObject : Bool) (lhs rhs : PdfVariant) : Except PdfErrorCode Bool :=
  if !sameObject then .ok true
  else
    match lhs with
    | .Bool b =>
      let r := TryGetBool rhs
      if r.1 then .ok (b != r.2) else .ok true
    | .Number n =>
      let r := TryGetNumber rhs
      if r.1 then .ok (n != r.2) else .ok true
    | .Real x =>
      let r := TryGetRealStrict rhs
      if r.1 then .ok (x != r.2) else .ok true
    | .Reference rf =>
      let r := TryGetReference rhs
      if r.1 then .ok (rf != r.2) else .ok true
    | .String s =>
      match TryGetString rhs with
      | (true, t) => .ok (s != t)
      | _ => .ok true
    | .Name n =>
      match TryGetName rhs with
      | (true, m) => .ok (n != m)
      | _ => .ok true
    | .Array a =>
      match TryGetArray rhs with
      | (true, some b) => .ok (!structEqList a b)
      | _ => .ok true
    | .Dictionary d =>
      match TryGetDictionary rhs with
      | (true, some e) => .ok (!structEqPairs d e)
      | _ => .ok true
    | .RawData _ => .error .NotImplemented
    | .Null => .ok false
    | .Unknown => .ok true

/-- The write-mode flags tested by `PdfVariant::Write`: the field `Compact`
embeds the bit test `(writeMode & PdfWriteMode::Compact) == PdfWriteMode::Compact`;
`Clean` is the complementary pretty-printing bit, never inspected here. -/
structure PdfWriteMode : Type where
  Compact : Bool
  Clean : Bool
deriving DecidableEq, Repr

/-- The decimal digit character for `d < 10`. -/
def digitChar (d : Nat) : Char :=
  Char.ofNat (48 + d)

/-- Decimal rendering of a natural number (most significant digit first). -/
def natDecimal (n : Nat) : List Char :=
  if _h : n < 10 then [digitChar n]
  else natDecimal (n / 10) ++ [digitChar (n % 10)]
termination_by n
decreasing_by
  exact Nat.div_lt_self (by omega) (by omega)

/-- Decimal rendering of an integer: the model of
`device.Print("%" PDF_FORMAT_INT64, value)`. -/
def intDecimal (n : Int) : List Char :=
  if n < 0 then '-' :: natDecimal n.natAbs else natDecimal n.toNat

/-- The fractional digits of a fixed-point rendering: `m < 10^6` padded on the
left with zeros to exactly six digits. -/
def padSixDigits (m : Nat) : List Char :=
  List.replicate (6 - (natDecimal m).length) '0' ++ natDecimal m

/-- Modelled from the spec: the rendering of a double by `ostringstream` with
`std::fixed` imbued with the PDF locale (an external library facility): sign,
integer part, decimal point and exactly six fractional digits, the exact value
rounded to nearest at the sixth decimal (tie direction is irrelevant to every
claim; this model rounds ties away from zero). -/
def fixedRender (q : ℚ) : List Char :=
  let scaled : Nat := (cppRound (|q| * 1000000)).toNat
  let sign : List Char := if q < 0 then ['-'] else []
  sign ++ natDecimal (scaled / 1000000) ++ '.' :: padSixDigits (scaled % 1000000)

/-- The `while (str[len - 1] == '0') len--;` loop of the Real branch of
`PdfVariant::Write`, as a function from the current length to the final one.
The loop runs only on renderings containing a dot, so the length never reaches
0 in the source; the 0 case here is the corresponding out-of-fuel stop. -/
def stripZerosLen (s : List Char) : Nat → Nat
  | 0 => 0
  | n + 1 => if s.getD n ' ' = '0' then stripZerosLen s n else n + 1

/-- Modelled from the spec: `PdfReference::Write` (its source is not under
`src/`): references serialize as `"<number> <generation> R"`. -/
def writeReference (r : PdfReference) : List Char :=
  natDecimal r.ObjectNumber ++ ' ' :: natDecimal r.GenerationNumber ++ [' ', 'R']

mutual

/-- Embedding of `PdfVariant::Write` with the output device embedded as the emitted
character list. Bool/Number/Real/Null write a single leading space in compact
mode; the Real branch renders with `std::fixed` and in compact mode strips via
the embedded length loop; String/Name/Array/Dictionary/RawData delegate to the
payload's own grammar (modelled from the spec, their sources being absent; the
`nullptr` payload check raising `InvalidHandle` is unrepresentable here);
`Unknown` raises `InvalidDataType`. The `encrypt` argument of the source is
not inspected on any of these paths and is omitted. -/
def Write (mode : PdfWriteMode) : PdfVariant → Except PdfErrorCode (List Char)
  | .Bool b =>
    let pre : List Char := if mode.Compact then [' '] else []
    .ok (pre ++ if b then "true".data else "false".data)
  | .Number n =>
    let pre : List Char := if mode.Compact then [' '] else []
    .ok (pre ++ intDecimal n)
  | .Real q =>
    let pre : List Char := if mode.Compact then [' '] else []
    let copy : List Char := fixedRender q
    if mode.Compact && copy.contains '.' then
      let len1 := stripZerosLen copy copy.length
      let len2 := if copy.getD (len1 - 1) ' ' = '.' then len1 - 1 else len1
      if len2 = 0 then .ok (pre ++ ['0'])
      else .ok (pre ++ copy.take len2)
    else .ok (pre ++ copy)
  | .Reference r => .ok (writeReference r)
  | .String s => .ok ('(' :: s.data ++ [')'])
  | .Name n => .ok ('/' :: n.data)
  | .Array a => do
    let inner ← writeItems mode a
    .ok ('[' :: inner ++ [']'])
  | .Dictionary d => do
    let inner ← writePairs mode d
    .ok ('<' :: '<' :: inner ++ ['>', '>'])
  | .RawData bytes => .ok (bytes.map (fun b => Char.ofNat b.toNat))
  | .Null =>
    let pre : List Char := if mode.Compact then [' '] else []
    .ok (pre ++ "null".data)
  | .Unknown => .error .InvalidDataType

/-- Serialization of the items of an array payload, in order. -/
def writeItems (mode : PdfWriteMode) : List PdfVariant → Except PdfErrorCode (List Char)
  | [] => .ok []
  | x :: xs => do
    let cx ← Write mode x
    let rest ← writeItems mode xs
    .ok (cx ++ rest)

/-- Serialization of the entries of a dictionary payload, in order. -/
def writePairs (mode : PdfWriteMode) : List (String × PdfVariant) → Except PdfErrorCode (List Char)
  | [] => .ok []
  | (k, x) :: xs => do
    let cx ← Write mode x
    let rest ← writePairs mode xs
    .ok ('/' :: k.data ++ cx ++ rest)

end

/-- Modelled from the spec: the maximum allowed generation value of the
free-id policy (the 16-bit generation ceiling of PDF cross-reference
entries). The implementation file of `PdfIndirectObjectList` is not under
`src/`; only its header is. -/
def MaxGeneration : Nat := 65535

/-- Modelled from the spec: the state of `PdfIndirectObjectList` (only the
header is under `src/`): the uniquely-keyed object collection, the
`objectCount` high-water mark, the free pool, the set of permanently
unavailable object numbers and the reuse flag. -/
structure PdfIndirectObjectList : Type where
  Objects : List (PdfReference × PdfVariant)
  ObjectCount : Nat
  FreeObjects : List PdfReference
  UnavailableObjects : List Nat
  CanReuseObjectNumbers : Bool

/-- Modelled from the spec: `AddFreeObject` — push a reference onto the
(deduplicated) free pool. -/
def AddFreeObject (s : PdfIndirectObjectList) (r : PdfReference) : PdfIndirectObjectList :=
  if r ∈ s.FreeObjects then s
  else { s with FreeObjects := s.FreeObjects ++ [r] }

/-- Modelled from the spec: `TryAddFreeObject(id)` adds the id to the free
pool only if its generation is below the maximum allowed generation value,
returning whether it was accepted; a rejected number is permanently retired
into the unavailable set. -/
def TryAddFreeObject (s : PdfIndirectObjectList) (r : PdfReference) :
    Bool × PdfIndirectObjectList :=
  if r.GenerationNumber < MaxGeneration then (true, AddFreeObject s r)
  else (false, { s with UnavailableObjects := r.ObjectNumber :: s.UnavailableObjects })

/-- Modelled from the spec: `SafeAddFreeObject(id)` adds the next generation
of the id (generation + 1) applying the same ceiling check — an id whose
generation is already at the maximum is permanently retired — and returns the
generation actually added, or the sentinel -1 if rejected. -/
def SafeAddFreeObject (s : PdfIndirectObjectList) (r : PdfReference) :
    Int × PdfIndirectObjectList :=
  if r.GenerationNumber < MaxGeneration then
    ((r.GenerationNumber + 1 : Int),
      AddFreeObject s (PdfReference.mk r.ObjectNumber (r.GenerationNumber + 1)))
  else (-1, { s with UnavailableObjects := r.ObjectNumber :: s.UnavailableObjects })

/-- Modelled from the spec: `getNextFreeObject` — pop from the free pool when
reuse is enabled and the pool is non-empty, otherwise take object number
`objectCount + 1` with generation 0. -/
def getNextFreeObject (s : PdfIndirectObjectList) :
    PdfReference × PdfIndirectObjectList :=
  if s.CanReuseObjectNumbers then
    match s.FreeObjects with
    | r :: rest => (r, { s with FreeObjects := rest })
    | [] => (PdfReference.mk (s.ObjectCount + 1) 0, s)
  else (PdfReference.mk (s.ObjectCount + 1) 0, s)

/-- Modelled from the spec: `CreateObject(value)` allocates the next available
id, inserts a new object holding the value, and raises `objectCount` when the
allocated number is new (the `TryIncrementObjectCount` bookkeeping). Returns
the allocated id with the updated store. -/
def CreateObject (s : PdfIndirectObjectList) (v : PdfVariant) :
    PdfReference × PdfIndirectObjectList :=
  let alloc := getNextFreeObject s
  (alloc.1,
    { alloc.2 with
      Objects := alloc.2.Objects ++ [(alloc.1, v)]
      ObjectCount := max alloc.2.ObjectCount alloc.1.ObjectNumber })

/-- Modelled from the spec: `RemoveObject(id, markAsFree)` detaches and
returns the object if present; with `markAsFree` the id goes through
`SafeAddFreeObject` (free-pool push of the next generation, or permanent
retirement at the generation ceiling). -/
def RemoveObject (s : PdfIndirectObjectList) (ref : PdfReference)
    (markAsFree : Bool) : Option PdfVariant × PdfIndirectObjectList :=
  match s.Objects.find? (fun p => p.1 == ref) with
  | none => (none, s)
  | some found =>
    let s1 := { s with Objects := s.Objects.filter (fun p => !(p.1 == ref)) }
    (some found.2, if markAsFree then (SafeAddFreeObject s1 ref).2 else s1)

/-- Modelled from the spec: `SetCanReuseObjectNumbers(false)` also clears the
existing free pool immediately. -/
def SetCanReuseObjectNumbers (s : PdfIndirectObjectList) (b : Bool) :
    PdfIndirectObjectList :=
  if b then { s with CanReuseObjectNumbers := true }
  else { s with CanReuseObjectNumbers := false, FreeObjects := [] }

/-- Embedding of `GetSize`: the number of live objects in the store. -/
def GetSize (s : PdfIndirectObjectList) : Nat :=
  s.Objects.length

mutual

/-- Modelled from the spec: the references a value depends on
(`GetObjectDependencies`): every `Reference` found inside the value,
recursively through `Array` and `Dictionary` payloads. -/
def refsOf : PdfVariant → List PdfReference
  | .Reference r => [r]
  | .Array a => refsOfList a
  | .Dictionary d => refsOfPairs d
  | _ => []

/-- References reachable through the items of an array payload. -/
def refsOfList : List PdfVariant → List PdfReference
  | [] => []
  | x :: xs => refsOf x ++ refsOfList xs

/-- References reachable through the entries of a dictionary payload. -/
def refsOfPairs : List (String × PdfVariant) → List PdfReference
  | [] => []
  | (_, x) :: xs => refsOf x ++ refsOfPairs xs

end

/-- Lookup of an object's value by id in the store's collection. -/
def findObject (objs : List (PdfReference × PdfVariant)) (r : PdfReference) :
    Option PdfVariant :=
  (objs.find? (fun p => p.1 == r)).map (fun p => p.2)

/-- The object numbers present in the store's collection. -/
def storeIds (objs : List (PdfReference × PdfVariant)) : List PdfReference :=
  objs.map (fun p => p.1)

/-- If lookup succeeds, the id is among the store ids. -/
theorem findObject_some_mem {objs : List (PdfReference × PdfVariant)}
    {r : PdfReference} {v : PdfVariant} (h : findObject objs r = some v) :
    r ∈ storeIds objs := by
  unfold findObject at h
  rcases Option.map_eq_some'.mp h with ⟨p, hp, hpv⟩
  have hmem := List.mem_of_find?_eq_some hp
  have hprop := List.find?_some hp
  simp only [beq_iff_eq] at hprop
  exact hprop ▸ List.mem_map_of_mem (fun q => q.1) hmem

/-- If lookup fails, the id is not among the store ids. -/
theorem findObject_none_not_mem {objs : List (PdfReference × PdfVariant)}
    {r : PdfReference} (h : findObject objs r = none) :
    r ∉ storeIds objs := by
  intro hmem
  unfold findObject at h
  rw [Option.map_eq_none'] at h
  rcases List.mem_map.mp hmem with ⟨p, hp, hpr⟩
  have := List.find?_eq_none.mp h p hp
  simp [hpr] at this

/-- Visiting a present, not yet visited id strictly shrinks the count of
unvisited store ids. -/
theorem length_filter_visit_lt {l vis : List PdfReference} {r : PdfReference}
    (hr : r ∈ l) (hnv : r ∉ vis) :
    (l.filter (fun x => !decide (x = r) && !decide (x ∈ vis))).length <
      (l.filter (fun x => !decide (x ∈ vis))).length := by
  induction l with
  | nil => cases hr
  | cons a t ih =>
    by_cases har : a = r
    · subst har
      simp only [List.filter, hnv, decide_not, decide_True, Bool.not_true,
        Bool.false_and, decide_False, Bool.not_false, Bool.and_self]
      have hmono : (t.filter (fun x => !decide (x = a) && !decide (x ∈ vis))).length ≤
          (t.filter (fun x => !decide (x ∈ vis))).length := by
        apply List.Sublist.length_le
        apply List.monotone_filter_right
        intro x hx
        exact (Bool.and_elim_right hx)
      simpa using Nat.lt_succ_of_le hmono
    · have hrt : r ∈ t := by
        rcases List.mem_cons.mp hr with h | h
        · exact absurd h.symm har
        · exact h
      by_cases hav : a ∈ vis
      · simp only [List.filter, hav, decide_True, Bool.not_true, Bool.and_false]
        exact ih hrt
      · simp only [List.filter, hav, har, decide_False, decide_True, Bool.not_false,
          Bool.true_and, Bool.and_self]
        simpa using Nat.succ_lt_succ (ih hrt)

/-- If the id is not a store id, restricting the unvisited filter by it
changes nothing. -/
theorem filter_visit_eq_of_not_mem {l vis : List PdfReference} {r : PdfReference}
    (hr : r ∉ l) :
    l.filter (fun x => !decide (x = r) && !decide (x ∈ vis)) =
      l.filter (fun x => !decide (x ∈ vis)) := by
  apply List.filter_congr
  intro x hx
  have hxr : ¬x = r := fun h => hr (h ▸ hx)
  simp [hxr]

/-- Modelled from the spec: the marking phase of `CollectGarbage` — a worklist
walk of the reference graph, visiting each reached id exactly once (cycle-safe
via the visited set); a reference to a nonexistent id is simply not expanded.
Returns the final visited set. -/
def markObjects (objs : List (PdfReference × PdfVariant))
    (visited work : List PdfReference) : List PdfReference :=
  match work with
  | [] => visited
  | r :: rest =>
    if r ∈ visited then markObjects objs visited rest
    else
      match hfind : findObject objs r with
      | some v => markObjects objs (r :: visited) (refsOf v ++ rest)
      | none => markObjects objs (r :: visited) rest
termination_by (((storeIds objs).filter (fun x => x ∉ visited)).length, work.length)
decreasing_by
  · apply Prod.Lex.right
    simp
  · apply Prod.Lex.left
    have hconv : (storeIds objs).filter (fun x => !decide (x ∈ r :: visited)) =
        (storeIds objs).filter (fun x => !decide (x = r) && !decide (x ∈ visited)) := by
      apply List.filter_congr
      intro x _
      simp [List.mem_cons]
    simp only [decide_not]
    rw [hconv]
    exact length_filter_visit_lt (findObject_some_mem hfind) (by assumption)
  · rw [Prod.lex_def]
    right
    simp only [decide_not]
    constructor
    · have hconv : (storeIds objs).filter (fun x => !decide (x ∈ r :: visited)) =
          (storeIds objs).filter (fun x => !decide (x = r) && !decide (x ∈ visited)) := by
        apply List.filter_congr
        intro x _
        simp [List.mem_cons]
      rw [hconv]
      exact congrArg List.length (filter_visit_eq_of_not_mem (findObject_none_not_mem hfind))
    · simp

/-- The ids reachable from a set of root references by recursively following
every `Reference` nested in `Array`/`Dictionary` payloads of live objects. -/
inductive Reachable (objs : List (PdfReference × PdfVariant))
    (roots : List PdfReference) : PdfReference → Prop where
  | root (r : PdfReference) (h : r ∈ roots) : Reachable objs roots r
  | step (r r' : PdfReference) (v : PdfVariant) (hr : Reachable objs roots r)
      (hv : findObject objs r = some v) (h : r' ∈ refsOf v) :
      Reachable objs roots r'

/-- Unfolding equation of `markObjects`: empty worklist. -/
theorem markObjects_nil (objs : List (PdfReference × PdfVariant))
    (visited : List PdfReference) : markObjects objs visited [] = visited := by
  simp [markObjects]

/-- Unfolding equation of `markObjects`: already-visited head. -/
theorem markObjects_visited (objs : List (PdfReference × PdfVariant))
    (visited : List PdfReference) (r : PdfReference) (rest : List PdfReference)
    (h : r ∈ visited) :
    markObjects objs visited (r :: rest) = markObjects objs visited rest := by
  simp [markObjects, h]

/-- Unfolding equation of `markObjects`: new head found in the store. -/
theorem markObjects_found (objs : List (PdfReference × PdfVariant))
    (visited : List PdfReference) (r : PdfReference) (rest : List PdfReference)
    (v : PdfVariant) (h : r ∉ visited) (hf : findObject objs r = some v) :
    markObjects objs visited (r :: rest) =
      markObjects objs (r :: visited) (refsOf v ++ rest) := by
  simp only [markObjects, if_neg h]
  split
  · next v' heq =>
    rw [hf] at heq
    cases heq
    rfl
  · next heq =>
    rw [hf] at heq
    cases heq

/-- Unfolding equation of `markObjects`: new head absent from the store. -/
theorem markObjects_missing (objs : List (PdfReference × PdfVariant))
    (visited : List PdfReference) (r : PdfReference) (rest : List PdfReference)
    (h : r ∉ visited) (hf : findObject objs r = none) :
    markObjects objs visited (r :: rest) = markObjects objs (r :: visited) rest := by
  simp only [markObjects, if_neg h]
  split
  · next v' heq =>
    rw [hf] at heq
    cases heq
  · next heq =>
    rfl

/-- Marking only grows the visited set. -/
theorem markObjects_mono (objs : List (PdfReference × PdfVariant))
    (visited work : List PdfReference) :
    ∀ x ∈ visited, x ∈ markObjects objs visited work := by
  induction visited, work using markObjects.induct objs with
  | case1 visited =>
    intro x hx
    rw [markObjects_nil]
    exact hx
  | case2 visited r rest hmem ih =>
    intro x hx
    rw [markObjects_visited _ _ _ _ hmem]
    exact ih x hx
  | case3 visited r rest hmem v hfind ih =>
    intro x hx
    rw [markObjects_found _ _ _ _ _ hmem hfind]
    exact ih x (List.mem_cons_of_mem r hx)
  | case4 visited r rest hmem hfind ih =>
    intro x hx
    rw [markObjects_missing _ _ _ _ hmem hfind]
    exact ih x (List.mem_cons_of_mem r hx)

/-- Every id on the worklist ends up visited. -/
theorem markObjects_work_subset (objs : List (PdfReference × PdfVariant))
    (visited work : List PdfReference) :
    ∀ x ∈ work, x ∈ markObjects objs visited work := by
  induction visited, work using markObjects.induct objs with
  | case1 visited =>
    intro x hx
    cases hx
  | case2 visited r rest hmem ih =>
    intro x hx
    rw [markObjects_visited _ _ _ _ hmem]
    rcases List.mem_cons.mp hx with h | h
    · exact h ▸ markObjects_mono objs visited rest r hmem
    · exact ih x h
  | case3 visited r rest hmem v hfind ih =>
    intro x hx
    rw [markObjects_found _ _ _ _ _ hmem hfind]
    rcases List.mem_cons.mp hx with h | h
    · exact h ▸ markObjects_mono objs (r :: visited) _ r (List.mem_cons_self r visited)
    · exact ih x (List.mem_append_right _ h)
  | case4 visited r rest hmem hfind ih =>
    intro x hx
    rw [markObjects_missing _ _ _ _ hmem hfind]
    rcases List.mem_cons.mp hx with h | h
    · exact h ▸ markObjects_mono objs (r :: visited) rest r (List.mem_cons_self r visited)
    · exact ih x h

/-- Soundness of marking: starting from reachable visited and worklist ids,
every marked id is reachable. -/
theorem markObjects_sound (objs : List (PdfReference × PdfVariant))
    (roots : List PdfReference) (visited work : List PdfReference)
    (hv : ∀ x ∈ visited, Reachable objs roots x)
    (hw : ∀ x ∈ work, Reachable objs roots x) :
    ∀ x ∈ markObjects objs visited work, Reachable objs roots x := by
  induction visited, work using markObjects.induct objs with
  | case1 visited =>
    intro x hx
    rw [markObjects_nil] at hx
    exact hv x hx
  | case2 visited r rest hmem ih =>
    intro x hx
    rw [markObjects_visited _ _ _ _ hmem] at hx
    exact ih hv (fun y hy => hw y (List.mem_cons_of_mem r hy)) x hx
  | case3 visited r rest hmem v hfind ih =>
    intro x hx
    rw [markObjects_found _ _ _ _ _ hmem hfind] at hx
    have hr : Reachable objs roots r := hw r (List.mem_cons_self r rest)
    refine ih ?_ ?_ x hx
    · intro y hy
      rcases List.mem_cons.mp hy with h | h
      · exact h ▸ hr
      · exact hv y h
    · intro y hy
      rcases List.mem_append.mp hy with h | h
      · exact Reachable.step r y v hr hfind h
      · exact hw y (List.mem_cons_of_mem r h)
  | case4 visited r rest hmem hfind ih =>
    intro x hx
    rw [markObjects_missing _ _ _ _ hmem hfind] at hx
    have hr : Reachable objs roots r := hw r (List.mem_cons_self r rest)
    refine ih ?_ (fun y hy => hw y (List.mem_cons_of_mem r hy)) x hx
    intro y hy
    rcases List.mem_cons.mp hy with h | h
    · exact h ▸ hr
    · exact hv y h

/-- Closure of the marking result: if every already-visited id has its
successors in visited-or-work, then the final visited set is closed under
successors of live objects. -/
theorem markObjects_closed (objs : List (PdfReference × PdfVariant))
    (visited work : List PdfReference)
    (hinv : ∀ r ∈ visited, ∀ v, findObject objs r = some v →
      ∀ x ∈ refsOf v, x ∈ visited ∨ x ∈ work) :
    ∀ r ∈ markObjects objs visited work, ∀ v, findObject objs r = some v →
      ∀ x ∈ refsOf v, x ∈ markObjects objs visited work := by
  induction visited, work using markObjects.induct objs with
  | case1 visited =>
    intro r hr v hfind x hx
    rw [markObjects_nil] at hr ⊢
    rcases hinv r hr v hfind x hx with h | h
    · exact h
    · cases h
  | case2 visited r0 rest hmem ih =>
    rw [markObjects_visited _ _ _ _ hmem]
    apply ih
    intro r hr v hfind x hx
    rcases hinv r hr v hfind x hx with h | h
    · exact Or.inl h
    · rcases List.mem_cons.mp h with h | h
      · exact Or.inl (h ▸ hmem)
      · exact Or.inr h
  | case3 visited r0 rest hmem v0 hfind0 ih =>
    rw [markObjects_found _ _ _ _ _ hmem hfind0]
    apply ih
    intro r hr v hfind x hx
    rcases List.mem_cons.mp hr with h | h
    · subst h
      rw [hfind0] at hfind
      cases hfind
      exact Or.inr (List.mem_append_left rest hx)
    · rcases hinv r h v hfind x hx with h1 | h1
      · exact Or.inl (List.mem_cons_of_mem r0 h1)
      · rcases List.mem_cons.mp h1 with h2 | h2
        · exact Or.inl (h2 ▸ List.mem_cons_self r0 visited)
        · exact Or.inr (List.mem_append_right _ h2)
  | case4 visited r0 rest hmem hfind0 ih =>
    rw [markObjects_missing _ _ _ _ hmem hfind0]
    apply ih
    intro r hr v hfind x hx
    rcases List.mem_cons.mp hr with h | h
    · subst h
      rw [hfind0] at hfind
      cases hfind
    · rcases hinv r h v hfind x hx with h1 | h1
      · exact Or.inl (List.mem_cons_of_mem r0 h1)
      · rcases List.mem_cons.mp h1 with h2 | h2
        · exact Or.inl (h2 ▸ List.mem_cons_self r0 visited)
        · exact Or.inr h2

/-- Completeness of marking: every id reachable from the roots is marked. -/
theorem markObjects_complete (objs : List (PdfReference × PdfVariant))
    (roots : List PdfReference) (x : PdfReference)
    (hx : Reachable objs roots x) :
    x ∈ markObjects objs [] roots := by
  induction hx with
  | root r h => exact markObjects_work_subset objs [] roots r h
  | step r r' v hr hv h ih =>
    exact markObjects_closed objs [] roots (by simp) r ih v hv r' h

/-- The marked set is exactly the set of reachable ids. -/
theorem marked_iff_reachable (objs : List (PdfReference × PdfVariant))
    (roots : List PdfReference) (x : PdfReference) :
    x ∈ markObjects objs [] roots ↔ Reachable objs roots x := by
  constructor
  · exact fun h => markObjects_sound objs roots [] roots (by simp)
      (fun y hy => Reachable.root y hy) x h
  · exact markObjects_complete objs roots x

/-- Modelled from the spec: `CollectGarbage(rootValue, notDelete)` — mark from
the references of the root value, then sweep: every live object whose id was
not marked and is not in `notDelete` is removed; marked and `notDelete`
objects survive. -/
def CollectGarbage (s : PdfIndirectObjectList) (rootValue : PdfVariant)
    (notDelete : List PdfReference) : PdfIndirectObjectList :=
  let marked := markObjects s.Objects [] (refsOf rootValue)
  { s with Objects := s.Objects.filter (fun p => p.1 ∈ marked ∨ p.1 ∈ notDelete) }

/-! ## Claim theorems -/

/-- Claim C1: for every Real-tagged value L and every value R that is not
Real-tagged, L == R returns false — the Real case of `operator==` reads the
right side through the strict accessor `TryGetRealStrict`, so in particular
`PdfVariant(1.0) == PdfVariant(int64 1)` is false. -/
theorem C1_real_equality_strict (q : ℚ) (r : PdfVariant)
    (h : GetDataType r ≠ PdfDataType.Real) :
    variantEq false (PdfVariant.Real q) r = Except.ok false := by
  cases r <;> simp [variantEq, TryGetRealStrict, GetDataType] at h ⊢

/-- Witness for C1 at the spec's own instance: L = Real 1.0, R = Integer 1. -/
theorem C1_real_equality_strict_witness :
    GetDataType (PdfVariant.Number 1) ≠ PdfDataType.Real ∧
      variantEq false (PdfVariant.Real 1) (PdfVariant.Number 1) = Except.ok false :=
  ⟨by decide, C1_real_equality_strict 1 (PdfVariant.Number 1) (by decide)⟩

/-- Counterexample to claim C2: with left Integer 1 and right Real 1.0 — a
right-hand side that is Real-tagged and numerically matches after lenient
coercion (`TryGetNumberLenient` yields 1) — `operator==` returns false, not
true: the Number case reads the right side through the strict `TryGetNumber`,
which rejects Real-tagged values. -/
theorem C2_counterexample :
    variantEq false (PdfVariant.Number 1) (PdfVariant.Real 1) = Except.ok false ∧
      TryGetNumberLenient (PdfVariant.Real 1) = (true, 1) := by
  constructor
  · rfl
  · simp [TryGetNumberLenient, cppRound]
    norm_num

/-- Claim C2 as amended: for a left Integer (Number-tagged) value, == returns
true exactly when the right side is also Number-tagged with the same stored
integer; any Real-tagged right side is rejected regardless of numeric value,
and the comparison never raises. -/
theorem C2_number_equality_strict (n : Int) (r : PdfVariant) :
    ∃ b : Bool, variantEq false (PdfVariant.Number n) r = Except.ok b ∧
      (b = true ↔ r = PdfVariant.Number n) := by
  cases r with
  | Number m =>
    refine ⟨n == m, by simp [variantEq, TryGetNumber], ?_⟩
    constructor
    · intro hb
      rw [beq_iff_eq] at hb
      rw [hb]
    · intro hb
      cases hb
      exact beq_self_eq_true n
  | _ => exact ⟨false, by simp [variantEq, TryGetNumber], by simp⟩

/-- Claim C3: `operator!=` short-circuits on object identity — for any two
distinct variant objects it returns true whatever the tags and payloads, so
two structurally equal values still compare unequal under !=, while a value
compared with itself has == true and != false (the negation relationship holds
there). -/
theorem C3_neq_identity_shortcircuit :
    (∀ a b : PdfVariant, variantNeq false a b = Except.ok true) ∧
      variantEq false (PdfVariant.Bool true) (PdfVariant.Bool true) = Except.ok true ∧
      variantNeq true (PdfVariant.Bool true) (PdfVariant.Bool true) = Except.ok false ∧
      variantEq true (PdfVariant.Bool true) (PdfVariant.Bool true) = Except.ok true :=
  ⟨fun _ _ => rfl, rfl, rfl, rfl⟩

/-- Claim C4: comparing a RawData-tagged value (on the left, against a distinct
object) raises `NotImplemented` instead of returning false, for every
right-hand value. -/
theorem C4_rawdata_equality_raises (d : List UInt8) (r : PdfVariant) :
    variantEq false (PdfVariant.RawData d) r =
      Except.error PdfErrorCode.NotImplemented :=
  rfl

/-- Claim C5: every Try accessor is total (its body contains no raise, which
the embedding reflects by returning a plain pair); it succeeds exactly when
the tag lies in the accessor's family, on mismatch it returns false with the
output parameter set to its defined default (false, 0, 0.0, empty string or
name, the (0,0) null reference, the null pointer), and on a tag match it
returns true with the payload (converted for the two lenient accessors). -/
theorem C5_try_accessors :
    (∀ v, (TryGetBool v).1 = true ↔ GetDataType v = PdfDataType.Bool) ∧
    (∀ v, GetDataType v ≠ PdfDataType.Bool → TryGetBool v = (false, false)) ∧
    (∀ b, TryGetBool (PdfVariant.Bool b) = (true, b)) ∧
    (∀ v, (TryGetNumber v).1 = true ↔ GetDataType v = PdfDataType.Number) ∧
    (∀ v, GetDataType v ≠ PdfDataType.Number → TryGetNumber v = (false, 0)) ∧
    (∀ n, TryGetNumber (PdfVariant.Number n) = (true, n)) ∧
    (∀ v, (TryGetNumberLenient v).1 = true ↔
      (GetDataType v = PdfDataType.Number ∨ GetDataType v = PdfDataType.Real)) ∧
    (∀ v, ¬(GetDataType v = PdfDataType.Number ∨ GetDataType v = PdfDataType.Real) →
      TryGetNumberLenient v = (false, 0)) ∧
    (∀ n, TryGetNumberLenient (PdfVariant.Number n) = (true, n)) ∧
    (∀ q, TryGetNumberLenient (PdfVariant.Real q) = (true, cppRound q)) ∧
    (∀ v, (TryGetReal v).1 = true ↔
      (GetDataType v = PdfDataType.Real ∨ GetDataType v = PdfDataType.Number)) ∧
    (∀ v, ¬(GetDataType v = PdfDataType.Real ∨ GetDataType v = PdfDataType.Number) →
      TryGetReal v = (false, 0)) ∧
    (∀ q, TryGetReal (PdfVariant.Real q) = (true, q)) ∧
    (∀ n, TryGetReal (PdfVariant.Number n) = (true, (n : ℚ))) ∧
    (∀ v, (TryGetRealStrict v).1 = true ↔ GetDataType v = PdfDataType.Real) ∧
    (∀ v, GetDataType v ≠ PdfDataType.Real → TryGetRealStrict v = (false, 0)) ∧
    (∀ q, TryGetRealStrict (PdfVariant.Real q) = (true, q)) ∧
    (∀ v, (TryGetString v).1 = true ↔ GetDataType v = PdfDataType.String) ∧
    (∀ v, GetDataType v ≠ PdfDataType.String → TryGetString v = (false, "")) ∧
    (∀ s, TryGetString (PdfVariant.String s) = (true, s)) ∧
    (∀ v, (TryGetName v).1 = true ↔ GetDataType v = PdfDataType.Name) ∧
    (∀ v, GetDataType v ≠ PdfDataType.Name → TryGetName v = (false, "")) ∧
    (∀ s, TryGetName (PdfVariant.Name s) = (true, s)) ∧
    (∀ v, (TryGetReference v).1 = true ↔ GetDataType v = PdfDataType.Reference) ∧
    (∀ v, GetDataType v ≠ PdfDataType.Reference →
      TryGetReference v = (false, PdfReference.mk 0 0)) ∧
    (∀ r, TryGetReference (PdfVariant.Reference r) = (true, r)) ∧
    (∀ v, (TryGetArray v).1 = true ↔ GetDataType v = PdfDataType.Array) ∧
    (∀ v, GetDataType v ≠ PdfDataType.Array → TryGetArray v = (false, none)) ∧
    (∀ a, TryGetArray (PdfVariant.Array a) = (true, some a)) ∧
    (∀ v, (TryGetDictionary v).1 = true ↔ GetDataType v = PdfDataType.Dictionary) ∧
    (∀ v, GetDataType v ≠ PdfDataType.Dictionary → TryGetDictionary v = (false, none)) ∧
    (∀ d, TryGetDictionary (PdfVariant.Dictionary d) = (true, some d)) := by
  refine ⟨?_, ?_, fun b => rfl, ?_, ?_, fun n => rfl, ?_, ?_, fun n => rfl,
    fun q => rfl, ?_, ?_, fun q => rfl, fun n => rfl, ?_, ?_, fun q => rfl,
    ?_, ?_, fun s => rfl, ?_, ?_, fun s => rfl, ?_, ?_, fun r => rfl,
    ?_, ?_, fun a => rfl, ?_, ?_, fun d => rfl⟩
  all_goals intro v
  all_goals try intro h
  all_goals cases v <;>
    simp_all [TryGetBool, TryGetNumber, TryGetNumberLenient, TryGetReal,
      TryGetRealStrict, TryGetString, TryGetName, TryGetReference,
      TryGetArray, TryGetDictionary, GetDataType]

/-- Witness for C5 at a concrete mismatch: `TryGetBool` on a Null value. -/
theorem C5_try_accessors_witness :
    TryGetBool PdfVariant.Null = (false, false) :=
  C5_try_accessors.2.1 PdfVariant.Null (by decide)

/-- Claim C6: the lenient numeric accessor succeeds exactly on tags Number and
Real; a Number yields the stored integer unchanged, a Real yields the stored
value narrowed with `std::round`, and that narrowing is round-to-nearest (the
result is within 1/2 of the exact value); on any other tag `GetNumberLenient`
raises `InvalidDataType`. -/
theorem C6_get_number_lenient :
    (∀ v, (∃ n, GetNumberLenient v = Except.ok n) ↔
      (GetDataType v = PdfDataType.Number ∨ GetDataType v = PdfDataType.Real)) ∧
    (∀ v, ¬(GetDataType v = PdfDataType.Number ∨ GetDataType v = PdfDataType.Real) →
      GetNumberLenient v = Except.error PdfErrorCode.InvalidDataType) ∧
    (∀ n, GetNumberLenient (PdfVariant.Number n) = Except.ok n) ∧
    (∀ q, GetNumberLenient (PdfVariant.Real q) = Except.ok (cppRound q)) ∧
    (∀ q, |(cppRound q : ℚ) - q| ≤ 1/2) := by
  have key : ∀ y : ℚ, |(⌊y + 1/2⌋ : ℚ) - y| ≤ 1/2 := by
    intro y
    rw [abs_le]
    constructor
    · have h1 : (y + 1/2) - 1 < (⌊y + 1/2⌋ : ℚ) := Int.sub_one_lt_floor (y + 1/2)
      linarith
    · have h2 : (⌊y + 1/2⌋ : ℚ) ≤ y + 1/2 := Int.floor_le (y + 1/2)
      linarith
  refine ⟨?_, ?_, fun n => rfl, fun q => rfl, ?_⟩
  · intro v
    cases v <;> simp [GetNumberLenient, TryGetNumberLenient, GetDataType]
  · intro v h
    cases v <;> simp_all [GetNumberLenient, TryGetNumberLenient, GetDataType]
  · intro q
    by_cases hq : q < 0
    · rw [cppRound, if_pos hq,
        show ((-⌊-q + 1/2⌋ : Int) : ℚ) - q = -((⌊-q + 1/2⌋ : ℚ) - (-q)) by
          push_cast
          ring,
        abs_neg]
      exact key (-q)
    · rw [cppRound, if_neg hq]
      exact key q

/-- Witness for C6 at concrete inputs: failure on Null, rounding on Real. -/
theorem C6_get_number_lenient_witness :
    GetNumberLenient PdfVariant.Null = Except.error PdfErrorCode.InvalidDataType ∧
      GetNumberLenient (PdfVariant.Real (3/2)) = Except.ok 2 := by
  constructor
  · exact C6_get_number_lenient.2.1 PdfVariant.Null (by decide)
  · rw [C6_get_number_lenient.2.2.2.1 (3/2)]
    norm_num [cppRound]

/-- Digit characters are not the space character. -/
theorem digitChar_ne_space (d : Nat) (hd : d < 10) : digitChar d ≠ ' ' := by
  interval_cases d <;> decide

/-- A decimal rendering starts with a digit. -/
theorem natDecimal_head (n : Nat) :
    ∃ d t, natDecimal n = digitChar d :: t ∧ d < 10 := by
  induction n using natDecimal.induct with
  | case1 n h =>
    exact ⟨n, [], by rw [natDecimal, dif_pos h], h⟩
  | case2 n h ih =>
    rcases ih with ⟨d, t, heq, hd⟩
    exact ⟨d, t ++ [digitChar (n % 10)], by rw [natDecimal, dif_neg h, heq]; rfl, hd⟩

/-- A decimal rendering never starts with a space. -/
theorem natDecimal_head_ne_space (n : Nat) :
    (natDecimal n).head? ≠ some ' ' := by
  rcases natDecimal_head n with ⟨d, t, heq, hd⟩
  rw [heq]
  simpa using digitChar_ne_space d hd

/-- An integer rendering never starts with a space. -/
theorem intDecimal_head_ne_space (n : Int) :
    (intDecimal n).head? ≠ some ' ' := by
  unfold intDecimal
  by_cases hn : n < 0
  · rw [if_pos hn]
    simp
  · rw [if_neg hn]
    exact natDecimal_head_ne_space n.toNat

/-- A fixed-point rendering never starts with a space: it starts with a minus
sign or a digit. -/
theorem fixedRender_head_ne_space (q : ℚ) :
    (fixedRender q).head? ≠ some ' ' := by
  rcases natDecimal_head ((cppRound (|q| * 1000000)).toNat / 1000000) with ⟨d, t, heq, hd⟩
  by_cases hq : q < 0
  · simp [fixedRender, hq]
  · simp [fixedRender, hq, heq]
    simpa using digitChar_ne_space d hd

/-- Taking a positive number of elements preserves the head. -/
theorem head_take_ne_zero {α : Type} (l : List α) (k : Nat) (hk : k ≠ 0) :
    (l.take k).head? = l.head? := by
  cases l with
  | nil => simp
  | cons x t =>
    cases k with
    | zero => exact absurd rfl hk
    | succ m => simp

/-- The final length kept by the compact-mode stripping of the Real branch of
`Write`: the zero-stripping loop followed by the single trailing-dot check. -/
def stripLen (s : List Char) : Nat :=
  let len1 := stripZerosLen s s.length
  if s.getD (len1 - 1) ' ' = '.' then len1 - 1 else len1

/-- Unfolding of the Real branch of `Write` in compact mode. -/
theorem write_real_compact (cl : Bool) (q : ℚ) :
    Write (PdfWriteMode.mk true cl) (PdfVariant.Real q) =
      if (fixedRender q).contains '.' then
        (if stripLen (fixedRender q) = 0 then Except.ok [' ', '0']
         else Except.ok (' ' :: (fixedRender q).take (stripLen (fixedRender q))))
      else Except.ok (' ' :: fixedRender q) :=
  rfl

/-- Unfolding of the Real branch of `Write` in non-compact mode: the
fixed-point rendering is emitted unstripped, with no leading space. -/
theorem write_real_clean (cl : Bool) (q : ℚ) :
    Write (PdfWriteMode.mk false cl) (PdfVariant.Real q) =
      Except.ok (fixedRender q) :=
  rfl

/-- Claim C7: for Bool, Integer, Real and Null values, `Write` in compact mode
emits exactly one leading space before the token (the emitted list is a space
followed by a token that does not itself start with a space), and in
non-compact mode emits no leading space. -/
theorem C7_compact_leading_space (v : PdfVariant) (cl : Bool)
    (h : GetDataType v = PdfDataType.Bool ∨ GetDataType v = PdfDataType.Number ∨
      GetDataType v = PdfDataType.Real ∨ GetDataType v = PdfDataType.Null) :
    (∃ t, Write (PdfWriteMode.mk true cl) v = Except.ok (' ' :: t) ∧
      t.head? ≠ some ' ') ∧
    (∃ t, Write (PdfWriteMode.mk false cl) v = Except.ok t ∧
      t.head? ≠ some ' ') := by
  cases v with
  | Bool b =>
    cases b
    · exact ⟨⟨"false".data, rfl, by decide⟩, ⟨"false".data, rfl, by decide⟩⟩
    · exact ⟨⟨"true".data, rfl, by decide⟩, ⟨"true".data, rfl, by decide⟩⟩
  | Number n =>
    exact ⟨⟨intDecimal n, rfl, intDecimal_head_ne_space n⟩,
      ⟨intDecimal n, rfl, intDecimal_head_ne_space n⟩⟩
  | Real q =>
    constructor
    · rw [write_real_compact]
      by_cases hc : (fixedRender q).contains '.'
      · rw [if_pos hc]
        by_cases h0 : stripLen (fixedRender q) = 0
        · rw [if_pos h0]
          exact ⟨['0'], rfl, by decide⟩
        · rw [if_neg h0]
          refine ⟨(fixedRender q).take (stripLen (fixedRender q)), rfl, ?_⟩
          rw [head_take_ne_zero _ _ h0]
          exact fixedRender_head_ne_space q
      · rw [if_neg hc]
        exact ⟨fixedRender q, rfl, fixedRender_head_ne_space q⟩
    · rw [write_real_clean]
      exact ⟨fixedRender q, rfl, fixedRender_head_ne_space q⟩
  | Null => exact ⟨⟨"null".data, rfl, by decide⟩, ⟨"null".data, rfl, by decide⟩⟩
  | Unknown => simp [GetDataType] at h
  | String s => simp [GetDataType] at h
  | Name n => simp [GetDataType] at h
  | Array a => simp [GetDataType] at h
  | Dictionary d => simp [GetDataType] at h
  | Reference r => simp [GetDataType] at h
  | RawData d => simp [GetDataType] at h

/-- Witness for C7 at the Null value. -/
theorem C7_compact_leading_space_witness :
    ∃ t, Write (PdfWriteMode.mk true false) PdfVariant.Null =
      Except.ok (' ' :: t) ∧ t.head? ≠ some ' ' :=
  (C7_compact_leading_space PdfVariant.Null false (by decide)).1

/-- The claim-side description of zero stripping: remove all trailing '0'
characters. -/
def dropTrailingZeros (s : List Char) : List Char :=
  (s.reverse.dropWhile (fun c => c = '0')).reverse

/-- The claim-side description of the compact-mode Real token: if the
rendering contains a decimal point, strip all trailing zeros, then a trailing
dot if one remains, and fall back to "0" when nothing is left; otherwise the
rendering is kept as is. -/
def stripDescribed (s : List Char) : List Char :=
  if s.contains '.' then
    let s1 := dropTrailingZeros s
    let s2 := if s1.getLast? = some '.' then s1.dropLast else s1
    if s2 = [] then ['0'] else s2
  else s

/-- The stripping loop is insensitive to list content beyond the scanned
prefix. -/
theorem stripZerosLen_append (t z : List Char) :
    ∀ k, k ≤ t.length → stripZerosLen (t ++ z) k = stripZerosLen t k := by
  intro k
  induction k with
  | zero => intro _; rfl
  | succ m ih =>
    intro hk
    have hlt : m < t.length := Nat.lt_of_succ_le hk
    simp only [stripZerosLen]
    rw [List.getD_append _ _ _ _ hlt]
    by_cases hc : t.getD m ' ' = '0'
    · rw [if_pos hc, if_pos hc]
      exact ih (Nat.le_of_succ_le hk)
    · rw [if_neg hc, if_neg hc]

/-- The stripping loop computes the length of the zero-stripped list. -/
theorem stripZerosLen_eq_dropTrailing (s : List Char) :
    stripZerosLen s s.length = (dropTrailingZeros s).length := by
  induction s using List.reverseRecOn with
  | nil => rfl
  | append_singleton t c ih =>
    by_cases hc : c = '0'
    · subst hc
      have hlen : (t ++ ['0']).length = t.length + 1 := by simp
      rw [hlen]
      simp only [stripZerosLen]
      have hget : (t ++ ['0']).getD t.length ' ' = '0' := by
        rw [List.getD_append_right _ _ _ _ le_rfl]
        simp
      rw [hget, if_pos rfl, stripZerosLen_append t ['0'] t.length le_rfl, ih]
      have hdz : dropTrailingZeros (t ++ ['0']) = dropTrailingZeros t := by
        simp [dropTrailingZeros, List.dropWhile]
      rw [hdz]
    · have hlen : (t ++ [c]).length = t.length + 1 := by simp
      rw [hlen]
      simp only [stripZerosLen]
      have hget : (t ++ [c]).getD t.length ' ' = c := by
        rw [List.getD_append_right _ _ _ _ le_rfl]
        simp
      rw [hget, if_neg hc]
      have hdz : dropTrailingZeros (t ++ [c]) = t ++ [c] := by
        simp [dropTrailingZeros, List.dropWhile, hc]
      rw [hdz, hlen]

/-- Decomposition of a list into its zero-stripped prefix and the trailing
zeros. -/
theorem dropTrailing_decomp (s : List Char) :
    dropTrailingZeros s ++ (s.reverse.takeWhile (fun c => c = '0')).reverse = s := by
  rw [dropTrailingZeros, ← List.reverse_append, List.takeWhile_append_dropWhile,
    List.reverse_reverse]

/-- A list containing a dot does not strip to nothing. -/
theorem dropTrailingZeros_ne_nil {s : List Char} (hdot : '.' ∈ s) :
    dropTrailingZeros s ≠ [] := by
  intro hnil
  have h := dropTrailing_decomp s
  rw [hnil, List.nil_append] at h
  rw [← h, List.mem_reverse] at hdot
  have := List.mem_takeWhile_imp hdot
  simp at this

/-- Indexing the last kept position via `getD` agrees with `getLast?`. -/
theorem getD_last_dot_iff {u : List Char} (hu : u ≠ []) :
    (u.getD (u.length - 1) ' ' = '.') ↔ (u.getLast? = some '.') := by
  have h1 : u.getD (u.length - 1) ' ' = (u.getLast?).getD ' ' := by
    rw [List.getLast?_eq_getElem?, List.getD_eq_getElem?_getD]
  rw [h1]
  cases hlast : u.getLast? with
  | none => exact absurd (List.getLast?_eq_none_iff.mp hlast) hu
  | some x => simp

/-- The compact-mode stripping written as a length computation in the source
equals the claim's description of it. -/
theorem strip_code_eq_described (s : List Char) (hdot : s.contains '.' = true) :
    (if stripLen s = 0 then ['0'] else s.take (stripLen s)) = stripDescribed s := by
  have hmem : '.' ∈ s := by simpa using hdot
  have hune : dropTrailingZeros s ≠ [] := dropTrailingZeros_ne_nil hmem
  have hs : s = dropTrailingZeros s ++ (s.reverse.takeWhile (fun c => c = '0')).reverse :=
    (dropTrailing_decomp s).symm
  unfold stripDescribed stripLen
  rw [if_pos hdot]
  dsimp only
  rw [stripZerosLen_eq_dropTrailing]
  set u := dropTrailingZeros s with hudef
  have hupos : 0 < u.length := List.length_pos.mpr hune
  have hsu : s.getD (u.length - 1) ' ' = u.getD (u.length - 1) ' ' := by
    conv_lhs => rw [hs]
    exact List.getD_append _ _ _ _ (by omega)
  have htake : ∀ k, k ≤ u.length → s.take k = u.take k := by
    intro k hk
    conv_lhs => rw [hs]
    rw [List.take_append_eq_append_take, Nat.sub_eq_zero_of_le hk, List.take_zero,
      List.append_nil]
  rw [hsu]
  by_cases hlast : u.getLast? = some '.'
  · rw [if_pos ((getD_last_dot_iff hune).mpr hlast), if_pos hlast]
    have hdl : s.take (u.length - 1) = u.dropLast := by
      rw [htake _ (Nat.sub_le _ _), List.dropLast_eq_take]
    have hlen0 : (u.length - 1 = 0) ↔ (u.dropLast = []) := by
      rw [← List.length_dropLast, List.length_eq_zero]
    by_cases h0 : u.length - 1 = 0
    · rw [if_pos h0, if_pos (hlen0.mp h0)]
    · rw [if_neg h0, if_neg (fun hh => h0 (hlen0.mpr hh))]
      exact hdl
  · rw [if_neg (fun hh => hlast ((getD_last_dot_iff hune).mp hh)), if_neg hlast]
    have hne0 : ¬(u.length = 0) := fun hh => hune (List.length_eq_zero.mp hh)
    rw [if_neg hne0, if_neg hune, htake _ le_rfl, List.take_length]

/-- A fixed-point rendering always contains the decimal point. -/
theorem fixedRender_contains_dot (q : ℚ) : (fixedRender q).contains '.' = true := by
  have hmem : '.' ∈ fixedRender q := by
    unfold fixedRender
    dsimp only
    rw [List.append_assoc]
    exact List.mem_append.mpr (Or.inr (List.mem_append.mpr
      (Or.inr (List.mem_cons_self _ _))))
  simpa using hmem

/-- Claim C8: for a Real value, `Write` in compact mode emits the fixed-point
rendering with all trailing zeros stripped, then a trailing decimal point
stripped if one remains, and "0" when stripping leaves nothing (all after the
compact leading space); in non-compact mode the fixed-point rendering is
emitted unstripped. -/
theorem C8_real_write_stripping (q : ℚ) (cl : Bool) :
    Write (PdfWriteMode.mk true cl) (PdfVariant.Real q) =
      Except.ok (' ' :: stripDescribed (fixedRender q)) ∧
    Write (PdfWriteMode.mk false cl) (PdfVariant.Real q) =
      Except.ok (fixedRender q) := by
  refine ⟨?_, write_real_clean cl q⟩
  rw [write_real_compact, if_pos (fixedRender_contains_dot q),
    ← strip_code_eq_described _ (fixedRender_contains_dot q)]
  by_cases h0 : stripLen (fixedRender q) = 0
  · rw [if_pos h0, if_pos h0]
  · rw [if_neg h0, if_neg h0]

/-- The empty store: no objects, objectCount 0, empty free pool, reuse
enabled. -/
def emptyStore : PdfIndirectObjectList :=
  { Objects := [], ObjectCount := 0, FreeObjects := [], UnavailableObjects := [],
    CanReuseObjectNumbers := true }

/-- A store mutation through the public lifecycle interface: object creation
or removal. -/
inductive StoreOp : Type where
  | create (v : PdfVariant) : StoreOp
  | remove (r : PdfReference) (markAsFree : Bool) : StoreOp

/-- Apply one lifecycle operation to the store. -/
def applyOp (s : PdfIndirectObjectList) : StoreOp → PdfIndirectObjectList
  | .create v => (CreateObject s v).2
  | .remove r mf => (RemoveObject s r mf).2

/-- Apply a sequence of lifecycle operations to the store. -/
def applyOps (s : PdfIndirectObjectList) : List StoreOp → PdfIndirectObjectList
  | [] => s
  | op :: ops => applyOps (applyOp s op) ops

/-- The permanent-retirement invariant for an object number `n`: it is in the
unavailable set, absent from the free pool and from the live objects, and not
beyond the high-water mark. -/
def RetiredInv (n : Nat) (s : PdfIndirectObjectList) : Prop :=
  n ∈ s.UnavailableObjects ∧
  (∀ r ∈ s.FreeObjects, r.ObjectNumber ≠ n) ∧
  (∀ p ∈ s.Objects, p.1.ObjectNumber ≠ n) ∧
  n ≤ s.ObjectCount

/-- Characterization of `getNextFreeObject`: either it pops the head of the
free pool (reuse enabled, pool non-empty), or it allocates the fresh number
`objectCount + 1` at generation 0 leaving the store unchanged. -/
theorem getNextFreeObject_spec (s : PdfIndirectObjectList) :
    (∃ rest, s.CanReuseObjectNumbers = true ∧
      s.FreeObjects = (getNextFreeObject s).1 :: rest ∧
      (getNextFreeObject s).2 = { s with FreeObjects := rest }) ∨
    ((getNextFreeObject s).1 = PdfReference.mk (s.ObjectCount + 1) 0 ∧
      (getNextFreeObject s).2 = s) := by
  unfold getNextFreeObject
  by_cases hcr : s.CanReuseObjectNumbers
  · cases hfo : s.FreeObjects with
    | nil => simp [hcr, hfo]
    | cons r rest =>
      left
      exact ⟨rest, hcr, by simp [hcr, hfo], by simp [hcr, hfo]⟩
  · simp [hcr]

/-- Unfolding of `CreateObject` in terms of the allocation step. -/
theorem CreateObject_eq (s : PdfIndirectObjectList) (v : PdfVariant) :
    CreateObject s v =
      ((getNextFreeObject s).1,
        { (getNextFreeObject s).2 with
          Objects := (getNextFreeObject s).2.Objects ++ [((getNextFreeObject s).1, v)]
          ObjectCount := max (getNextFreeObject s).2.ObjectCount
            (getNextFreeObject s).1.ObjectNumber }) :=
  rfl

/-- Creating an object preserves retirement of `n` and never allocates
number `n`. -/
theorem retiredInv_create {n : Nat} {s : PdfIndirectObjectList}
    (h : RetiredInv n s) (v : PdfVariant) :
    RetiredInv n (CreateObject s v).2 ∧ (CreateObject s v).1.ObjectNumber ≠ n := by
  obtain ⟨hun, hfree, hobj, hcount⟩ := h
  rw [CreateObject_eq]
  rcases getNextFreeObject_spec s with ⟨rest, hcr, hfo, hs2⟩ | ⟨hr, hs2⟩
  · have hrn : (getNextFreeObject s).1.ObjectNumber ≠ n :=
      hfree _ (hfo ▸ List.mem_cons_self _ rest)
    rw [hs2]
    refine ⟨⟨hun, ?_, ?_, ?_⟩, hrn⟩
    · intro x hx
      exact hfree x (hfo ▸ List.mem_cons_of_mem _ hx)
    · intro p hp
      rcases List.mem_append.mp hp with hmem | hmem
      · exact hobj p hmem
      · rcases List.mem_singleton.mp hmem with rfl
        exact hrn
    · exact le_trans hcount (le_max_left _ _)
  · have hrn : (getNextFreeObject s).1.ObjectNumber ≠ n := by
      rw [hr]
      simp only
      omega
    rw [hs2]
    refine ⟨⟨hun, hfree, ?_, ?_⟩, hrn⟩
    · intro p hp
      rcases List.mem_append.mp hp with hmem | hmem
      · exact hobj p hmem
      · rcases List.mem_singleton.mp hmem with rfl
        exact hrn
    · exact le_trans hcount (le_max_left _ _)

/-- Removing an object preserves retirement of `n`. -/
theorem retiredInv_remove {n : Nat} {s : PdfIndirectObjectList}
    (h : RetiredInv n s) (ref : PdfReference) (mf : Bool) :
    RetiredInv n (RemoveObject s ref mf).2 := by
  obtain ⟨hun, hfree, hobj, hcount⟩ := h
  unfold RemoveObject
  cases hfind : s.Objects.find? (fun p => p.1 == ref) with
  | none => exact ⟨hun, hfree, hobj, hcount⟩
  | some found =>
    have hfoundmem : found ∈ s.Objects := List.mem_of_find?_eq_some hfind
    have hfoundeq : found.1 = ref := by
      have := List.find?_some hfind
      simpa using this
    have hrefn : ref.ObjectNumber ≠ n := hfoundeq ▸ hobj found hfoundmem
    have hobj1 : ∀ p ∈ s.Objects.filter (fun p => !(p.1 == ref)),
        p.1.ObjectNumber ≠ n := by
      intro p hp
      exact hobj p (List.mem_of_mem_filter hp)
    cases mf with
    | false => exact ⟨hun, hfree, hobj1, hcount⟩
    | true =>
      simp only
      unfold SafeAddFreeObject AddFreeObject
      by_cases hgen : ref.GenerationNumber < MaxGeneration
      · rw [if_pos hgen]
        by_cases hdup :
            PdfReference.mk ref.ObjectNumber (ref.GenerationNumber + 1) ∈
              s.FreeObjects
        · rw [if_pos hdup]
          exact ⟨hun, hfree, hobj1, hcount⟩
        · rw [if_neg hdup]
          refine ⟨hun, ?_, hobj1, hcount⟩
          intro r hr
          rcases List.mem_append.mp hr with hmem | hmem
          · exact hfree r hmem
          · rcases List.mem_singleton.mp hmem with rfl
            exact hrefn
      · rw [if_neg hgen]
        exact ⟨List.mem_cons_of_mem _ hun, hfree, hobj1, hcount⟩

/-- Retirement of `n` is preserved by any sequence of lifecycle operations. -/
theorem retiredInv_applyOps {n : Nat} {s : PdfIndirectObjectList}
    (h : RetiredInv n s) (ops : List StoreOp) :
    RetiredInv n (applyOps s ops) := by
  induction ops generalizing s with
  | nil => exact h
  | cons op ops ih =>
    cases op with
    | create v => exact ih (retiredInv_create h v).1
    | remove r mf => exact ih (retiredInv_remove h r mf)

/-- Removing the object whose number `n` sits at the maximum generation (with
`markAsFree`) permanently retires `n`: the removal establishes the
retirement invariant. -/
theorem retired_establish {n : Nat} {s : PdfIndirectObjectList} {v : PdfVariant}
    (hmem : (PdfReference.mk n MaxGeneration, v) ∈ s.Objects)
    (honly : ∀ p ∈ s.Objects, p.1.ObjectNumber = n →
      p.1 = PdfReference.mk n MaxGeneration)
    (hfree : ∀ r ∈ s.FreeObjects, r.ObjectNumber ≠ n)
    (hcount : n ≤ s.ObjectCount) :
    RetiredInv n (RemoveObject s (PdfReference.mk n MaxGeneration) true).2 := by
  unfold RemoveObject
  cases hfind : s.Objects.find? (fun p => p.1 == PdfReference.mk n MaxGeneration) with
  | none =>
    exfalso
    have := List.find?_eq_none.mp hfind _ hmem
    simp at this
  | some found =>
    dsimp only
    unfold SafeAddFreeObject
    have hgen : ¬((PdfReference.mk n MaxGeneration).GenerationNumber < MaxGeneration) := by
      simp
    rw [if_neg hgen]
    refine ⟨List.mem_cons_self _ _, hfree, ?_, hcount⟩
    intro p hp hpn
    have hpmem := List.mem_of_mem_filter hp
    have hpkeep := List.of_mem_filter hp
    have hpeq := honly p hpmem hpn
    rw [hpeq] at hpkeep
    simp at hpkeep

/-- Claim C9: id allocation of `CreateObject`. With reuse enabled and a
non-empty free pool the id is popped from the pool, otherwise the number
`objectCount + 1` at generation 0 is used; two creations on the empty store
yield (1,0) then (2,0); removing (1,0) with `markAsFree` and creating again
reuses number 1 at generation 1; and a number removed at the maximum
generation is permanently retired: after that removal, no sequence of
create/remove operations ever allocates it again. -/
theorem C9_create_object_id_allocation :
    (∀ s r rest, s.CanReuseObjectNumbers = true → s.FreeObjects = r :: rest →
      getNextFreeObject s = (r, { s with FreeObjects := rest })) ∧
    (∀ s : PdfIndirectObjectList, s.FreeObjects = [] →
      getNextFreeObject s = (PdfReference.mk (s.ObjectCount + 1) 0, s)) ∧
    (∀ s : PdfIndirectObjectList, s.CanReuseObjectNumbers = false →
      getNextFreeObject s = (PdfReference.mk (s.ObjectCount + 1) 0, s)) ∧
    (∀ v1 v2, (CreateObject emptyStore v1).1 = PdfReference.mk 1 0 ∧
      (CreateObject (CreateObject emptyStore v1).2 v2).1 = PdfReference.mk 2 0) ∧
    (∀ v1 v2 v3,
      (CreateObject (RemoveObject (CreateObject (CreateObject emptyStore v1).2 v2).2
        (PdfReference.mk 1 0) true).2 v3).1 = PdfReference.mk 1 1) ∧
    (∀ (n : Nat) (s : PdfIndirectObjectList) (v : PdfVariant),
      (PdfReference.mk n MaxGeneration, v) ∈ s.Objects →
      (∀ p ∈ s.Objects, p.1.ObjectNumber = n →
        p.1 = PdfReference.mk n MaxGeneration) →
      (∀ r ∈ s.FreeObjects, r.ObjectNumber ≠ n) →
      n ≤ s.ObjectCount →
      RetiredInv n (RemoveObject s (PdfReference.mk n MaxGeneration) true).2) ∧
    (∀ (n : Nat) (s : PdfIndirectObjectList), RetiredInv n s →
      ∀ ops v, (CreateObject (applyOps s ops) v).1.ObjectNumber ≠ n) := by
  refine ⟨?_, ?_, ?_, ?_, ?_, ?_, ?_⟩
  · intro s r rest hcr hfo
    simp [getNextFreeObject, hcr, hfo]
  · intro s hfo
    by_cases hcr : s.CanReuseObjectNumbers
    · simp [getNextFreeObject, hcr, hfo]
    · simp [getNextFreeObject, hcr]
  · intro s hcr
    simp [getNextFreeObject, hcr]
  · intro v1 v2
    exact ⟨rfl, rfl⟩
  · intro v1 v2 v3
    rfl
  · intro n s v hmem honly hfree hcount
    exact retired_establish hmem honly hfree hcount
  · intro n s h ops v
    exact (retiredInv_create (retiredInv_applyOps h ops) v).2

/-- Witness for C9: pool pop on a concrete store, and permanent retirement of
number 1 on a concrete retired store across a concrete operation sequence. -/
theorem C9_create_object_id_allocation_witness :
    getNextFreeObject
        { Objects := [], ObjectCount := 5, FreeObjects := [PdfReference.mk 3 1],
          UnavailableObjects := [], CanReuseObjectNumbers := true } =
      (PdfReference.mk 3 1,
        { Objects := [], ObjectCount := 5, FreeObjects := [],
          UnavailableObjects := [], CanReuseObjectNumbers := true }) ∧
    (CreateObject (applyOps
        { Objects := [], ObjectCount := 1, FreeObjects := [],
          UnavailableObjects := [1], CanReuseObjectNumbers := true }
        [StoreOp.create PdfVariant.Null]) PdfVariant.Null).1.ObjectNumber ≠ 1 := by
  constructor
  · exact C9_create_object_id_allocation.1 _ (PdfReference.mk 3 1) [] rfl rfl
  · refine C9_create_object_id_allocation.2.2.2.2.2.2 1 _ ?_ _ PdfVariant.Null
    refine ⟨by decide, ?_, ?_, by decide⟩
    · intro r hr
      cases hr
    · intro p hp
      cases hp

/-- The dictionary value of object (1,0) in the garbage-collection scenario:
a "Kids" key holding an array with a reference to object (2,0). -/
def gcDemoDict : PdfVariant :=
  PdfVariant.Dictionary
    [("Kids", PdfVariant.Array [PdfVariant.Reference (PdfReference.mk 2 0)])]

/-- The garbage-collection scenario store: objects (1,0), (2,0) and the
unreferenced (3,0). -/
def gcDemoStore : PdfIndirectObjectList :=
  { Objects := [(PdfReference.mk 1 0, gcDemoDict),
      (PdfReference.mk 2 0, PdfVariant.Null),
      (PdfReference.mk 3 0, PdfVariant.Null)],
    ObjectCount := 3, FreeObjects := [], UnavailableObjects := [],
    CanReuseObjectNumbers := true }

/-- The garbage-collection scenario root value: a reference to object (1,0). -/
def gcDemoRoot : PdfVariant :=
  PdfVariant.Reference (PdfReference.mk 1 0)

/-- Claim C10: `CollectGarbage(rootValue, notDelete)` removes exactly the live
objects whose ids are unreachable from the root value (following references
nested in Array/Dictionary payloads) and are not in `notDelete`; reachable and
`notDelete` objects survive, and no object is added. In the scenario with
objects {(1,0) ↦ Dictionary with a reference to (2,0), (2,0) ↦ Null,
(3,0) ↦ Null} and the root a reference to (1,0), exactly object 3 is removed
and `GetSize` drops from 3 to 2. -/
theorem C10_collect_garbage :
    (∀ (s : PdfIndirectObjectList) (root : PdfVariant) (nd : List PdfReference),
      (∀ p ∈ s.Objects,
        p ∈ (CollectGarbage s root nd).Objects ↔
          (Reachable s.Objects (refsOf root) p.1 ∨ p.1 ∈ nd)) ∧
      (∀ p ∈ (CollectGarbage s root nd).Objects, p ∈ s.Objects)) ∧
    GetSize gcDemoStore = 3 ∧
    (CollectGarbage gcDemoStore gcDemoRoot []).Objects =
      [(PdfReference.mk 1 0, gcDemoDict), (PdfReference.mk 2 0, PdfVariant.Null)] ∧
    GetSize (CollectGarbage gcDemoStore gcDemoRoot []) = 2 := by
  have hmarked : markObjects gcDemoStore.Objects [] (refsOf gcDemoRoot) =
      [PdfReference.mk 2 0, PdfReference.mk 1 0] := by
    show markObjects gcDemoStore.Objects [] [PdfReference.mk 1 0] = _
    rw [markObjects_found gcDemoStore.Objects [] (PdfReference.mk 1 0) []
      gcDemoDict (by simp) (by rfl)]
    show markObjects gcDemoStore.Objects [PdfReference.mk 1 0] [PdfReference.mk 2 0] = _
    rw [markObjects_found gcDemoStore.Objects [PdfReference.mk 1 0]
      (PdfReference.mk 2 0) [] PdfVariant.Null (by simp) (by rfl)]
    show markObjects gcDemoStore.Objects
      [PdfReference.mk 2 0, PdfReference.mk 1 0] [] = _
    rw [markObjects_nil]
  refine ⟨?_, rfl, ?_, ?_⟩
  · intro s root nd
    constructor
    · intro p hp
      constructor
      · intro hmem
        unfold CollectGarbage at hmem
        have hkeep := List.of_mem_filter hmem
        rw [decide_eq_true_iff] at hkeep
        rcases hkeep with h | h
        · exact Or.inl ((marked_iff_reachable _ _ _).mp h)
        · exact Or.inr h
      · intro hreach
        unfold CollectGarbage
        refine List.mem_filter.mpr ⟨hp, ?_⟩
        rw [decide_eq_true_iff]
        rcases hreach with h | h
        · exact Or.inl ((marked_iff_reachable _ _ _).mpr h)
        · exact Or.inr h
    · intro p hp
      unfold CollectGarbage at hp
      exact List.mem_of_mem_filter hp
  · unfold CollectGarbage
    dsimp only
    rw [hmarked]
    rfl
  · unfold GetSize CollectGarbage
    dsimp only
    rw [hmarked]
    rfl

/-- Witness for C10: the survival criterion evaluated at the concrete store
and the unreferenced object (3,0). -/
theorem C10_collect_garbage_witness :
    (PdfReference.mk 3 0, PdfVariant.Null) ∈
        (CollectGarbage gcDemoStore gcDemoRoot []).Objects ↔
      (Reachable gcDemoStore.Objects (refsOf gcDemoRoot) (PdfReference.mk 3 0) ∨
        PdfReference.mk 3 0 ∈ ([] : List PdfReference)) :=
  (C10_collect_garbage.1 gcDemoStore gcDemoRoot []).1 _
    (List.mem_cons_of_mem _ (List.mem_cons_of_mem _ (List.mem_cons_self _ _)))

end Pdfmm
